import Mathlib

/-!
Shallow embedding of internal/simulator/simulator.go from the
chirpstack-simulator repository, together with theorems about the
simulation lifecycle, CSV device-list parsing, device provisioning,
gateway topology sampling and context wiring.

Conventions:
* machine bytes are modelled as natural numbers (with explicit bounds
  where the width matters);
* a Go runtime panic (index out of range, mrand.Intn on a non-positive
  bound) is modelled by a dedicated result constructor or by Option.none;
* randomness (math/rand draws, crypto/rand bytes) is modelled by an
  explicit stream/oracle argument: any concrete outcome of the draws is
  one instantiation of the oracle;
* the concurrent completion order of goroutines is modelled by
  quantifying over permutations of the spawned task list.
-/

namespace ChirpstackSim

/-! ## Bytes, hex decoding, lorawan.EUI64 -/

/-- An EUI64 (lorawan.EUI64 is an 8-byte array); modelled as a list of
byte values. -/
abbrev EUI64 := List Nat

/-- Value of one hexadecimal digit character, as accepted by Go's
encoding/hex (digits, lowercase and uppercase letters). -/
def hexDigitVal (c : Char) : Option Nat :=
  if '0' ≤ c ∧ c ≤ '9' then some (c.toNat - 48)
  else if 'a' ≤ c ∧ c ≤ 'f' then some (c.toNat - 87)
  else if 'A' ≤ c ∧ c ≤ 'F' then some (c.toNat - 55)
  else none

/-- Go's hex.DecodeString: decodes pairs of hex digits into bytes; an
odd-length input or an invalid digit is an error (none). -/
def hexDecodePairs : List Char → Option (List Nat)
  | [] => some []
  | [_] => none
  | hi :: lo :: rest => do
    let h ← hexDigitVal hi
    let l ← hexDigitVal lo
    let bs ← hexDecodePairs rest
    pure ((16 * h + l) :: bs)

/-- lorawan.EUI64.UnmarshalText: hex-decode the text; if decoding fails
or the result is not exactly 8 bytes, the receiver is left unchanged
(the simulator code ignores the returned error, so the receiver keeps
its previous value). -/
def euiUnmarshalText (e : EUI64) (s : String) : EUI64 :=
  match hexDecodePairs s.toList with
  | none => e
  | some b => if b.length = 8 then b else e

/-- Parsing a device identity as done in setupDevices: a fresh zero
EUI64 receives UnmarshalText, whose error is ignored. -/
def parseEUI (s : String) : EUI64 :=
  euiUnmarshalText (List.replicate 8 0) s

/-- The constant gateway identity parsed in setupGateways from the
hardcoded text 1020304050607080 (again into a fresh zero EUI64, error
ignored). -/
def gatewayIdentity : EUI64 :=
  euiUnmarshalText (List.replicate 8 0) "1020304050607080"

/-! ## CSV device list (readDevicesFromCSV) -/

/-- One parsed device-list record (type Device in simulator.go). -/
structure Device where
  Name : String
  DeviceProfileId : String
  DevEui : String
  NwkKey : String
  JoinEui : String
  Description : String
deriving DecidableEq, Repr

/-- Outcome of readDevicesFromCSV: a returned device list, a returned
error, or a Go runtime panic (modelled by crash). -/
inductive ParseResult where
  | ok (devices : List Device)
  | err (msg : String)
  | crash
deriving DecidableEq, Repr

/-- encoding/csv Reader.ReadAll with the default FieldsPerRecord = 0:
the first record fixes the expected field count and every later record
with a different count is a field-count error. The input is the list of
lexed records of the file. -/
def csvReadAll (records : List (List String)) : Except String (List (List String)) :=
  match records with
  | [] => .ok []
  | r0 :: _ =>
    if records.all (fun r => r.length = r0.length) then .ok records
    else .error "wrong number of fields"

/-- The record loop of readDevicesFromCSV: skip the record at index 0
(the header), reject a record with fewer than 4 fields with a returned
error, then read fields 0 to 5 of the record; reading an index beyond
the record length is an index-out-of-range panic (crash). -/
def readDevicesLoop : List (List String) → Nat → ParseResult
  | [], _ => .ok []
  | r :: rs, i =>
    if i = 0 then readDevicesLoop rs (i + 1)
    else if r.length < 4 then
      .err ("недостаточно полей в строке " ++ toString (i + 1))
    else
      match r.get? 0, r.get? 1, r.get? 2, r.get? 3, r.get? 4, r.get? 5 with
      | some n, some dp, some de, some nk, some je, some d =>
        match readDevicesLoop rs (i + 1) with
        | .ok ds => .ok (⟨n, dp, de, nk, je, d⟩ :: ds)
        | res => res
      | _, _, _, _, _, _ => .crash

/-- readDevicesFromCSV on the lexed records of the file: ReadAll, then
the record loop (the file-open error path is outside the model). -/
def readDevicesFromCSV (records : List (List String)) : ParseResult :=
  match csvReadAll records with
  | .error e => .err e
  | .ok rs => readDevicesLoop rs 0

/-! ## Device provisioning (setupDevices)

One goroutine per parsed device row. Each task: parse the DevEui (error
ignored), generate a fresh random 128-bit app key via crypto/rand
(log.Fatal on failure), call the remote Create then CreateKeys
operations (log.Fatal on failure), then insert into the shared
deviceAppKeys map under the mutex. The commented-out line that would
have used the NwkKey column is absent from the model, as it is from the
compiled code. -/

/-- Per-task effect oracle: the outcome of the crypto/rand draw (none
models a rand.Read error) and of the two remote calls. -/
structure TaskEnv where
  randKey : Option Nat
  createErr : Bool
  createKeysErr : Bool
deriving DecidableEq, Repr

/-- Remote management-API calls issued by one provisioning task, with
the arguments the code passes. -/
inductive RemoteCall where
  | createDevice (devEui : EUI64) (name description applicationId deviceProfileId : String)
  | createDeviceKeys (devEui : EUI64) (nwkKey : Nat)
deriving DecidableEq, Repr

/-- Outcome of one provisioning goroutine: log.Fatal (whole-process
termination) or the map entry it inserts. -/
inductive TaskOutcome where
  | fatal
  | ok (devEUI : EUI64) (appKey : Nat)
deriving DecidableEq, Repr

/-- Body of one provisioning goroutine, together with the remote calls
it issued before finishing. The 16 random bytes of the app key are
modelled as the oracle value reduced modulo 2 ^ 128. -/
def runDeviceTask (appId : String) (dev : Device) (env : TaskEnv) :
    TaskOutcome × List RemoteCall :=
  let devEUI := parseEUI dev.DevEui
  match env.randKey with
  | none => (.fatal, [])
  | some r =>
    let appKey := r % 2 ^ 128
    let c1 := RemoteCall.createDevice devEUI dev.Name dev.Description appId dev.DeviceProfileId
    if env.createErr then (.fatal, [c1])
    else
      let c2 := RemoteCall.createDeviceKeys devEUI appKey
      if env.createKeysErr then (.fatal, [c1, c2])
      else (.ok devEUI appKey, [c1, c2])

/-- The app key a successful task stores: the fresh random oracle value
as 16 bytes. -/
def taskKey (env : TaskEnv) : Nat := env.randKey.getD 0 % 2 ^ 128

/-- An oracle under which the task reaches its normal completion. -/
def taskSucceeds (env : TaskEnv) : Prop :=
  env.randKey.isSome = true ∧ env.createErr = false ∧ env.createKeysErr = false

instance (env : TaskEnv) : Decidable (taskSucceeds env) :=
  inferInstanceAs (Decidable (env.randKey.isSome = true ∧ env.createErr = false ∧ env.createKeysErr = false))

/-- Go map insertion on deviceAppKeys, modelled on an association list:
overwrite the entry when the key is present, append otherwise. -/
def mapInsert (m : List (EUI64 × Nat)) (k : EUI64) (v : Nat) : List (EUI64 × Nat) :=
  if k ∈ m.map Prod.fst then m.map (fun p => if p.1 = k then (k, v) else p)
  else m ++ [(k, v)]

/-- Outcome of the whole setupDevices task phase: either some task hit
log.Fatal (process exit — setupDevices never returns an error value on
these paths) or all tasks completed and the barrier released with the
final map. -/
inductive SetupDevicesOutcome where
  | fatalExit
  | completed (m : List (EUI64 × Nat))
deriving DecidableEq, Repr

/-- The provisioning goroutines, consumed in their completion order
(the caller quantifies over permutations of the row list to model the
concurrent schedule). A log.Fatal in any task terminates the process. -/
def runProvisioningTasks (appId : String) :
    List (Device × TaskEnv) → List (EUI64 × Nat) → SetupDevicesOutcome
  | [], m => .completed m
  | t :: ts, m =>
    match (runDeviceTask appId t.1 t.2).1 with
    | .fatal => .fatalExit
    | .ok e k => runProvisioningTasks appId ts (mapInsert m e k)

/-- The map entries contributed by a list of tasks that all complete:
each task inserts its parsed identity with its fresh random key. -/
def taskEntries (tasks : List (Device × TaskEnv)) : List (EUI64 × Nat) :=
  tasks.map fun t => (parseEUI t.1.DevEui, taskKey t.2)

/-! ## Gateway topology sampling and OTAA delay (runSimulation) -/

/-- math/rand Intn: for a positive bound the draw is some value in
[0, bound); Intn on a non-positive bound is a runtime panic (none). A
draw is modelled as the oracle value reduced modulo the bound, so every
value below the bound is a reachable outcome. -/
def intn (bound v : Nat) : Option Nat :=
  if bound = 0 then none else some (v % bound)

/-- The per-device accumulation loop of runSimulation: while the
accumulated index set has fewer than devNumGateways members, draw a
random index in [0, pool size) and add it to the set (devGateways is a
Go map keyed by index, hence a set). The source loop is unbounded; fuel
models a finite budget of draws, and exhausting it (like a panicking
draw) yields no outcome. -/
def sampleLoop (stream : Nat → Nat) (P k : Nat) : Nat → Nat → Finset Nat → Option (Finset Nat)
  | 0, _, acc => if acc.card < k then none else some acc
  | fuel + 1, idx, acc =>
    if acc.card < k then
      match intn P (stream idx) with
      | none => none
      | some n => sampleLoop stream P k fuel (idx + 1) (insert n acc)
    else some acc

/-- Per-device gateway subset selection in runSimulation:
devNumGateways is gatewayMinCount plus a draw from
Intn (gatewayMaxCount - gatewayMinCount + 1), then the accumulation
loop runs over the pool of P gateways. Returns the chosen size and the
chosen index set. -/
def sampleGateways (stream : Nat → Nat) (minC maxC P fuel : Nat) :
    Option (Nat × Finset Nat) :=
  match intn (maxC - minC + 1) (stream 0) with
  | none => none
  | some r =>
    match sampleLoop stream P (minC + r) fuel 1 ∅ with
    | none => none
    | some s => some (minC + r, s)

/-- math/rand Int63n as used for the OTAA delay: panics (none) on a
non-positive bound, otherwise yields a draw in [0, bound). -/
def int63n (bound : Int) (v : Int) : Option Int :=
  if bound ≤ 0 then none else some (v.emod bound)

/-- The OTAA activation delay chosen per device in runSimulation:
Int63n over int64(activationTime). -/
def otaaDelay (activationTime : Int) (v : Int) : Option Int :=
  int63n activationTime v

/-! ## Contexts (runSimulation lines 190-195, fixture operations) -/

/-- Shape of a Go context as built by the simulator: the background
context, the parent context handed to Start, and the WithCancel /
WithTimeout wrappers. -/
inductive Ctx where
  | background
  | parentCtx
  | withCancel (parent : Ctx)
  | withTimeout (parent : Ctx) (d : Nat)
deriving DecidableEq, Repr

/-- The run-phase context of runSimulation: WithCancel over the parent
context, additionally wrapped WithTimeout exactly when the configured
duration is nonzero. -/
def runCtx (parent : Ctx) (duration : Nat) : Ctx :=
  let c := Ctx.withCancel parent
  if duration ≠ 0 then Ctx.withTimeout c duration else c

/-- Whether a context carries a deadline wrapper anywhere in its
construction. -/
def hasDeadline : Ctx → Bool
  | .background => false
  | .parentCtx => false
  | .withCancel p => hasDeadline p
  | .withTimeout _ _ => true

/-- Whether a context can be cancelled at all: the background context
cannot; the parent context and every WithCancel / WithTimeout wrapper
can. -/
def cancellable : Ctx → Bool
  | .background => false
  | .parentCtx => true
  | .withCancel _ => true
  | .withTimeout _ _ => true

/-- The remote fixture operations issued during setup and teardown. -/
inductive FixtureOp where
  | getTenant
  | getApplication
  | createDevice
  | createDeviceKeys
  | deleteDevice
deriving DecidableEq, Repr

/-- The context each fixture operation is invoked under in the source:
every one of them passes context.Background(). -/
def fixtureOpCtx : FixtureOp → Ctx
  | .getTenant => .background
  | .getApplication => .background
  | .createDevice => .background
  | .createDeviceKeys => .background
  | .deleteDevice => .background

/-- The context handed to every NewDevice run unit: the run-phase
context itself (the same one the signal listener cancels). -/
def deviceRunCtx (parent : Ctx) (duration : Nat) : Ctx :=
  runCtx parent duration

/-! ## Simulation state (struct simulation) -/

/-- The mutable fixture state of one simulation instance (the fields of
struct simulation written during setup). The tenant is modelled by its
identifier, the device-profile and application identifiers as
strings. -/
structure SimState where
  tenant : Option String
  deviceProfileID : String
  applicationID : String
  gatewayIDs : List EUI64
  deviceAppKeys : List (EUI64 × Nat)
deriving DecidableEq, Repr

/-- setupTenant: stores the fetched tenant. -/
def setupTenantSt (t : String) (s : SimState) : SimState :=
  { s with tenant := some t }

/-- setupGateways: the loop body runs gatewayMaxCount times, each time
parsing the constant text 1020304050607080 into a fresh zero EUI64
(error ignored; the remote Create call is commented out) and appending
it to gatewayIDs. -/
def setupGatewaysSt (maxCount : Nat) (s : SimState) : SimState :=
  { s with gatewayIDs := s.gatewayIDs ++ List.replicate maxCount gatewayIdentity }

/-- setupDeviceProfile: stores the hardcoded existing device-profile
identifier (the Create call is commented out). -/
def setupDeviceProfileSt (s : SimState) : SimState :=
  { s with deviceProfileID := "98e37811-de41-4da7-9440-f3c8fb35fbb9" }

/-- setupApplication: stores the identifier of the application fetched
for the hardcoded identifier (the Create call is commented out). -/
def setupApplicationSt (fetchedId : String) (s : SimState) : SimState :=
  { s with applicationID := fetchedId }

/-- setupDevices: stores the map produced by the provisioning barrier. -/
def setupDevicesSt (m : List (EUI64 × Nat)) (s : SimState) : SimState :=
  { s with deviceAppKeys := m }

/-- tearDownDevices only issues remote Delete calls; no simulation
field is written. The other teardown steps and the run phase write no
field either. -/
def tearDownDevicesSt (s : SimState) : SimState := s

/-! ## Lifecycle (start, init, tearDown) -/

/-- The lifecycle steps of one simulation, in source order. -/
inductive Step where
  | getTenant
  | createGateways
  | resolveDeviceProfile
  | getApplication
  | provisionDevices
  | subscribeIntegration
  | runPhase
  | unsubscribeIntegration
  | deleteDevices
  | deleteApplication
  | deleteDeviceProfile
  | deleteGateways
deriving DecidableEq, Repr

/-- Error oracle for the fallible lifecycle steps (true means the step
returns an error). Steps whose error paths are commented out in the
source — setupGateways, tearDownApplication, tearDownDeviceProfile,
tearDownGateways — have no flag; setupDevices either returns nil or
terminates the process via log.Fatal, so its returned error is also
absent. -/
structure StepOracle where
  getTenantErr : Bool
  deviceProfileErr : Bool
  getApplicationErr : Bool
  subscribeErr : Bool
  unsubscribeErr : Bool
  deleteDevicesErr : Bool
deriving DecidableEq, Repr

/-- A chain of steps of the shape
if err := step(); err != nil then return err: execution stops at the
first failing step; the trace records the steps attempted and whether
an error was returned. -/
def stepSeq : List (Step × Bool) → List Step × Bool
  | [] => ([], false)
  | (st, e) :: rest =>
    if e then ([st], true)
    else
      let r := stepSeq rest
      (st :: r.1, r.2)

/-- The init chain (setupTenant, setupGateways, setupDeviceProfile,
setupApplication, setupDevices, setupApplicationIntegration). -/
def initSteps (o : StepOracle) : List (Step × Bool) :=
  [(.getTenant, o.getTenantErr),
   (.createGateways, false),
   (.resolveDeviceProfile, o.deviceProfileErr),
   (.getApplication, o.getApplicationErr),
   (.provisionDevices, false),
   (.subscribeIntegration, o.subscribeErr)]

/-- The tearDown chain (tearDownApplicationIntegration,
tearDownDevices, tearDownApplication, tearDownDeviceProfile,
tearDownGateways). -/
def tearDownSteps (o : StepOracle) : List (Step × Bool) :=
  [(.unsubscribeIntegration, o.unsubscribeErr),
   (.deleteDevices, o.deleteDevicesErr),
   (.deleteApplication, false),
   (.deleteDeviceProfile, false),
   (.deleteGateways, false)]

/-- Trace and returned error of init. -/
def initRun (o : StepOracle) : List Step × Bool :=
  stepSeq (initSteps o)

/-- Trace and returned error of tearDown. -/
def tearDownRun (o : StepOracle) : List Step × Bool :=
  stepSeq (tearDownSteps o)

/-- start: calls init, logs its error, calls runSimulation (runErr is
its returned error), logs it, calls tearDown, logs its error — each
phase is invoked unconditionally after the previous one returns. The
result is the full step trace and the three logged error flags. -/
def startRun (o : StepOracle) (runErr : Bool) : List Step × List Bool :=
  let i := initRun o
  let t := tearDownRun o
  (i.1 ++ [Step.runPhase] ++ t.1, [i.2, runErr, t.2])

/-! ## Concrete sample data (used to evaluate the model on closed
inputs) -/

/-- A sample parsed device row. -/
def devA : Device := ⟨"A", "p1", "0102030405060708", "k1", "j1", "d1"⟩

/-- A second sample parsed device row with a distinct identity. -/
def devB : Device := ⟨"B", "p2", "1112131415161718", "k2", "j2", "d2"⟩

/-- A sample device-list file: one 6-field header and two valid data
rows. -/
def witRecords : List (List String) :=
  [["name", "profile", "deveui", "nwkkey", "joineui", "descr"],
   ["A", "p1", "0102030405060708", "k1", "j1", "d1"],
   ["B", "p2", "1112131415161718", "k2", "j2", "d2"]]

/-- A sample completion order of the two provisioning tasks (the
reverse of the row order) with successful oracles. -/
def witTasks : List (Device × TaskEnv) :=
  [(devB, ⟨some 7, false, false⟩), (devA, ⟨some 5, false, false⟩)]

/-! ## Helper lemmas -/

/-- getD on a replicated list inside its length yields the replicated
element. -/
theorem getD_replicate_of_lt (a : EUI64) :
    ∀ (n i : Nat), i < n → (List.replicate n a).getD i [] = a := by
  intro n
  induction n with
  | zero => intro i h; omega
  | succ n ih =>
    intro i h
    cases i with
    | zero => simp [List.replicate]
    | succ i => simpa [List.replicate] using ih i (by omega)

/-- The record loop, entered past the header, yields one Device per
remaining record when it succeeds. -/
theorem readDevicesLoop_length :
    ∀ (rs : List (List String)) (i : Nat) (devs : List Device), i ≠ 0 →
      readDevicesLoop rs i = .ok devs → devs.length = rs.length := by
  intro rs
  induction rs with
  | nil =>
    intro i devs _ h
    simp only [readDevicesLoop, ParseResult.ok.injEq] at h
    simp [← h]
  | cons r rs ih =>
    intro i devs hi h
    simp only [readDevicesLoop, if_neg hi] at h
    by_cases hlen : r.length < 4
    · simp [if_pos hlen] at h
    · rw [if_neg hlen] at h
      split at h
      · split at h
        · rename_i ds hrec
          obtain rfl : _ :: ds = devs := by simpa using h
          simp [ih (i + 1) ds (by omega) hrec]
        · rename_i hnot
          exact absurd h (hnot devs)
      · simp at h

/-- readDevicesFromCSV yields one Device per data row (every record
after the header) when it succeeds on a nonempty record list. -/
theorem readDevicesFromCSV_length (records : List (List String)) (devs : List Device)
    (hne : records ≠ []) (h : readDevicesFromCSV records = .ok devs) :
    devs.length + 1 = records.length := by
  rcases records with _ | ⟨r0, rest⟩
  · exact absurd rfl hne
  · simp only [readDevicesFromCSV, csvReadAll] at h
    cases hall : (r0 :: rest).all (fun r => r.length = r0.length) with
    | false => rw [hall] at h; simp at h
    | true =>
      rw [hall] at h
      simp only [if_true, reduceIte] at h
      simp only [readDevicesLoop, reduceIte] at h
      simp [readDevicesLoop_length rest 1 devs (by omega) h]

/-- A successful oracle drives one task to its normal completion: the
parsed identity, the reduced random key, and the two remote calls. -/
theorem runDeviceTask_ok (appId : String) (d : Device) (env : TaskEnv)
    (h : taskSucceeds env) :
    runDeviceTask appId d env =
      (.ok (parseEUI d.DevEui) (taskKey env),
       [.createDevice (parseEUI d.DevEui) d.Name d.Description appId d.DeviceProfileId,
        .createDeviceKeys (parseEUI d.DevEui) (taskKey env)]) := by
  obtain ⟨h1, h2, h3⟩ := h
  obtain ⟨r, hr⟩ := Option.isSome_iff_exists.mp h1
  simp [runDeviceTask, taskKey, hr, h2, h3]

/-- A failing oracle (random bytes or either remote call) drives the
task to log.Fatal. -/
theorem runDeviceTask_fatal (appId : String) (d : Device) (env : TaskEnv)
    (h : ¬ taskSucceeds env) :
    (runDeviceTask appId d env).1 = .fatal := by
  rcases henv : env.randKey with _ | r
  · simp [runDeviceTask, henv]
  · by_cases hc : env.createErr = true
    · simp [runDeviceTask, henv, hc]
    · have hc' : env.createErr = false := by simpa using hc
      have hk : env.createKeysErr = true := by
        by_contra hk
        exact h ⟨by simp [henv], hc', by simpa using hk⟩
      simp [runDeviceTask, henv, hc', hk]

/-- Inserting a fresh key into the deviceAppKeys map appends the
entry. -/
theorem mapInsert_of_notMem (m : List (EUI64 × Nat)) (k : EUI64) (v : Nat)
    (h : k ∉ m.map Prod.fst) : mapInsert m k v = m ++ [(k, v)] := by
  simp [mapInsert, h]

/-- If every task of the batch succeeds and the parsed identities are
pairwise distinct and fresh with respect to the accumulated map, the
barrier releases with the map extended by one entry per task, in
completion order. -/
theorem runProvisioningTasks_all_ok (appId : String) :
    ∀ (tasks : List (Device × TaskEnv)) (m : List (EUI64 × Nat)),
      (∀ t ∈ tasks, taskSucceeds t.2) →
      (tasks.map fun t => parseEUI t.1.DevEui).Nodup →
      (∀ t ∈ tasks, parseEUI t.1.DevEui ∉ m.map Prod.fst) →
      runProvisioningTasks appId tasks m = .completed (m ++ taskEntries tasks) := by
  intro tasks
  induction tasks with
  | nil => intro m _ _ _; simp [runProvisioningTasks, taskEntries]
  | cons t ts ih =>
    intro m hok hnd hdisj
    have hts : taskSucceeds t.2 := hok t (by simp)
    have h1 : (runDeviceTask appId t.1 t.2).1 = .ok (parseEUI t.1.DevEui) (taskKey t.2) := by
      rw [runDeviceTask_ok appId t.1 t.2 hts]
    simp only [runProvisioningTasks, h1]
    rw [mapInsert_of_notMem m _ _ (hdisj t (by simp))]
    have hndt : (parseEUI t.1.DevEui ∉ ts.map fun t' => parseEUI t'.1.DevEui) ∧
        (ts.map fun t' => parseEUI t'.1.DevEui).Nodup := by
      rw [List.map_cons, List.nodup_cons] at hnd
      exact hnd
    rw [ih (m ++ [(parseEUI t.1.DevEui, taskKey t.2)])
      (fun t' ht' => hok t' (List.mem_cons_of_mem _ ht')) hndt.2 ?_]
    · simp [taskEntries]
    · intro t' ht'
      simp only [List.map_append, List.mem_append]
      rintro (hm | he)
      · exact hdisj t' (List.mem_cons_of_mem _ ht') hm
      · have : parseEUI t'.1.DevEui = parseEUI t.1.DevEui := by simpa using he
        exact hndt.1 (this ▸ List.mem_map_of_mem (fun t'' => parseEUI t''.1.DevEui) ht')

/-- If any task of the batch fails, the whole process is terminated by
log.Fatal, whatever the completion order of the other tasks. -/
theorem runProvisioningTasks_fatal (appId : String) :
    ∀ (tasks : List (Device × TaskEnv)) (m : List (EUI64 × Nat)),
      (∃ t ∈ tasks, ¬ taskSucceeds t.2) →
      runProvisioningTasks appId tasks m = .fatalExit := by
  intro tasks
  induction tasks with
  | nil => rintro m ⟨t, ht, _⟩; simp at ht
  | cons t ts ih =>
    rintro m ⟨t', ht', hfail⟩
    by_cases hts : taskSucceeds t.2
    · have h1 : (runDeviceTask appId t.1 t.2).1 = .ok (parseEUI t.1.DevEui) (taskKey t.2) := by
        rw [runDeviceTask_ok appId t.1 t.2 hts]
      simp only [runProvisioningTasks, h1]
      rcases List.mem_cons.mp ht' with rfl | hmem
      · exact absurd hts hfail
      · exact ih _ ⟨t', hmem, hfail⟩
    · have h1 := runDeviceTask_fatal appId t.1 t.2 hts
      simp [runProvisioningTasks, h1]

/-- Partial-correctness invariant of the per-device accumulation loop:
whenever it yields a set, that set has exactly the requested number of
members and every member is an index into the pool. -/
theorem sampleLoop_spec (stream : Nat → Nat) (P k : Nat) :
    ∀ (fuel idx : Nat) (acc S : Finset Nat),
      (∀ i ∈ acc, i < P) → acc.card ≤ k →
      sampleLoop stream P k fuel idx acc = some S →
      S.card = k ∧ ∀ i ∈ S, i < P := by
  intro fuel
  induction fuel with
  | zero =>
    intro idx acc S hlt hle h
    simp only [sampleLoop] at h
    by_cases hcard : acc.card < k
    · simp [if_pos hcard] at h
    · rw [if_neg hcard] at h
      obtain rfl : acc = S := by simpa using h
      exact ⟨le_antisymm hle (not_lt.mp hcard), hlt⟩
  | succ fuel ih =>
    intro idx acc S hlt hle h
    simp only [sampleLoop] at h
    by_cases hcard : acc.card < k
    · rw [if_pos hcard] at h
      rcases hint : intn P (stream idx) with _ | n <;> rw [hint] at h
      · exact absurd h (by simp)
      · have hP : P ≠ 0 := by
          intro h0
          rw [h0] at hint
          simp [intn] at hint
        have hn : n < P := by
          rw [intn, if_neg hP] at hint
          obtain rfl : stream idx % P = n := by simpa using hint
          exact Nat.mod_lt _ (Nat.pos_of_ne_zero hP)
        refine ih (idx + 1) (insert n acc) S ?_ ?_ h
        · intro i hi
          rcases Finset.mem_insert.mp hi with rfl | hia
          · exact hn
          · exact hlt i hia
        · calc (insert n acc).card ≤ acc.card + 1 := Finset.card_insert_le n acc
            _ ≤ k := hcard
    · rw [if_neg hcard] at h
      obtain rfl : acc = S := by simpa using h
      exact ⟨le_antisymm hle (not_lt.mp hcard), hlt⟩

/-- The first teardown step is attempted whatever the step oracle
says. -/
theorem tearDownRun_head (o : StepOracle) :
    Step.unsubscribeIntegration ∈ (tearDownRun o).1 := by
  unfold tearDownRun tearDownSteps
  cases o.unsubscribeErr <;> simp [stepSeq]

/-! ## Claim theorems -/

/-- C1: start executes the setup, run and teardown phases in that fixed
order, and the run and teardown phases are attempted even when an
earlier phase returned an error; in particular, when the setup phase
fails at tenant resolution (and the teardown collaborators report
success, as with a recording stub), teardown is still invoked and
attempts every reverse step — unsubscribe, delete devices, delete
application, delete device-profile, delete gateways — in that order. -/
theorem C1_start_always_runs_all_phases (o : StepOracle) (r : Bool)
    (h1 : o.getTenantErr = true) (h2 : o.unsubscribeErr = false)
    (h3 : o.deleteDevicesErr = false) :
    (initRun o).2 = true ∧
    (startRun o r).1 = [.getTenant, .runPhase, .unsubscribeIntegration, .deleteDevices,
      .deleteApplication, .deleteDeviceProfile, .deleteGateways] ∧
    ∀ (o' : StepOracle) (r' : Bool),
      Step.runPhase ∈ (startRun o' r').1 ∧
      Step.unsubscribeIntegration ∈ (startRun o' r').1 := by
  refine ⟨?_, ?_, ?_⟩
  · simp [initRun, initSteps, stepSeq, h1]
  · simp [startRun, initRun, initSteps, tearDownRun, tearDownSteps, stepSeq, h1, h2, h3]
  · intro o' r'
    refine ⟨?_, ?_⟩
    · simp [startRun]
    · simp only [startRun, List.mem_append]
      exact Or.inr (tearDownRun_head o')

/-- C1 witness: the oracle failing exactly at tenant resolution. -/
theorem C1_witness :
    (startRun ⟨true, false, false, false, false, false⟩ false).1 =
      [.getTenant, .runPhase, .unsubscribeIntegration, .deleteDevices,
       .deleteApplication, .deleteDeviceProfile, .deleteGateways] :=
  (C1_start_always_runs_all_phases ⟨true, false, false, false, false, false⟩ false
    rfl rfl rfl).2.1

/-- C2: the claim says a 5-field data row makes provisioning fail with
a returned parse error; on the code, a 5-field data row following a
5-field header passes both the ReadAll field-count check and the
len < 4 guard, and the access to field index 5 is then an
index-out-of-range runtime panic, not a returned error. -/
theorem C2_five_field_row_crashes :
    readDevicesFromCSV [["name", "profile", "deveui", "nwkkey", "joineui"],
      ["A", "p1", "0102030405060708", "k1", "j1"]] = .crash := by decide

/-- C3: whenever the per-device gateway sampler yields an outcome for
gatewayMinCount ≤ gatewayMaxCount over a pool of size gatewayMaxCount,
the chosen size k is within the configured range, the sampled index set
has exactly k members, every index is inside the pool, and the set has
no duplicate members. -/
theorem C3_sampler_bounds (stream : Nat → Nat) (minC maxC P fuel k : Nat) (S : Finset Nat)
    (hle : minC ≤ maxC) (hP : P = maxC)
    (h : sampleGateways stream minC maxC P fuel = some (k, S)) :
    minC ≤ k ∧ k ≤ maxC ∧ S.card = k ∧ (∀ i ∈ S, i < P) ∧ S.toList.Nodup := by
  unfold sampleGateways at h
  split at h
  · simp at h
  · rename_i r hint
    have hb : maxC - minC + 1 ≠ 0 := by omega
    simp only [intn, if_neg hb] at hint
    have hr : r < maxC - minC + 1 := by
      obtain rfl : stream 0 % (maxC - minC + 1) = r := by simpa using hint
      exact Nat.mod_lt _ (Nat.pos_of_ne_zero hb)
    split at h
    · simp at h
    · rename_i s hloop
      obtain ⟨hk, hS⟩ : minC + r = k ∧ s = S := by simpa using h
      subst hk
      subst hS
      have spec := sampleLoop_spec stream P (minC + r) fuel 1 ∅ s (by simp) (by simp) hloop
      exact ⟨Nat.le_add_right _ _, by omega, spec.1, spec.2, Finset.nodup_toList s⟩

/-- C3 witness: pool 5, range 2..5, the identity stream: the sampler
returns the two-element set containing indices 1 and 2. -/
theorem C3_witness :
    2 ≤ 2 ∧ 2 ≤ 5 ∧ (insert 2 (insert 1 (∅ : Finset Nat))).card = 2 ∧
      (∀ i ∈ insert 2 (insert 1 (∅ : Finset Nat)), i < 5) ∧
      (insert 2 (insert 1 (∅ : Finset Nat))).toList.Nodup :=
  C3_sampler_bounds (fun i => i) 2 5 5 20 2 (insert 2 (insert 1 ∅))
    (by decide) rfl rfl

/-- C4: for a device list of one header row and R valid data rows with
pairwise distinct parsed identities, when every concurrent task
succeeds, every completion order of the tasks ends with deviceAppKeys
holding exactly R entries — one per parsed identity — and after only a
strict prefix of the tasks the map is still strictly smaller, so the
final size is reached only when the completion barrier releases. -/
theorem C4_provisioning_completeness (appId : String)
    (records : List (List String)) (R : Nat) (devs : List Device)
    (tasks : List (Device × TaskEnv))
    (hread : readDevicesFromCSV records = .ok devs)
    (hR : records.length = R + 1)
    (hperm : List.Perm (tasks.map Prod.fst) devs)
    (hok : ∀ t ∈ tasks, taskSucceeds t.2)
    (hdist : (devs.map fun d => parseEUI d.DevEui).Nodup) :
    (runProvisioningTasks appId tasks [] = .completed (taskEntries tasks) ∧
      (taskEntries tasks).length = R ∧
      List.Perm ((taskEntries tasks).map Prod.fst) (devs.map fun d => parseEUI d.DevEui)) ∧
    ∀ n < tasks.length,
      runProvisioningTasks appId (tasks.take n) [] = .completed (taskEntries (tasks.take n)) ∧
      (taskEntries (tasks.take n)).length < R := by
  have hlen_devs : devs.length = R := by
    have hne : records ≠ [] := by
      intro h0
      rw [h0] at hR
      simp at hR
    have := readDevicesFromCSV_length records devs hne hread
    omega
  have hmapeq : (tasks.map fun t => parseEUI t.1.DevEui)
      = (tasks.map Prod.fst).map fun d => parseEUI d.DevEui := by
    rw [List.map_map]
    rfl
  have hpermmap : List.Perm (tasks.map fun t => parseEUI t.1.DevEui)
      (devs.map fun d => parseEUI d.DevEui) := by
    rw [hmapeq]
    exact hperm.map _
  have hnodup_tasks : (tasks.map fun t => parseEUI t.1.DevEui).Nodup :=
    hpermmap.nodup_iff.mpr hdist
  have hlen_tasks : tasks.length = R := by
    have h1 : tasks.length = devs.length := by simpa using hperm.length_eq
    omega
  refine ⟨⟨?_, ?_, ?_⟩, ?_⟩
  · simpa using runProvisioningTasks_all_ok appId tasks [] hok hnodup_tasks (by simp)
  · simp [taskEntries, hlen_tasks]
  · have hfst : (taskEntries tasks).map Prod.fst = tasks.map fun t => parseEUI t.1.DevEui := by
      simp [taskEntries, List.map_map]
    rw [hfst]
    exact hpermmap
  · intro n hn
    have hsub : ∀ t ∈ tasks.take n, taskSucceeds t.2 :=
      fun t ht => hok t (List.take_subset n tasks ht)
    have hnd : ((tasks.take n).map fun t => parseEUI t.1.DevEui).Nodup :=
      hnodup_tasks.sublist ((List.take_sublist n tasks).map _)
    refine ⟨by simpa using runProvisioningTasks_all_ok appId (tasks.take n) [] hsub hnd (by simp), ?_⟩
    have hlt : (tasks.take n).length = n := by
      rw [List.length_take]
      exact Nat.min_eq_left (le_of_lt hn)
    simp only [taskEntries, List.length_map, hlt]
    omega

/-- C4 witness: the sample 2-row device list, tasks completing in
reverse row order: the final map has both entries. -/
theorem C4_witness :
    runProvisioningTasks "app" witTasks [] = .completed (taskEntries witTasks) ∧
    (taskEntries witTasks).length = 2 :=
  ⟨(C4_provisioning_completeness "app" witRecords 2 [devA, devB] witTasks
      (by decide) rfl (List.Perm.swap devA devB []) (by decide) (by decide)).1.1,
   (C4_provisioning_completeness "app" witRecords 2 [devA, devB] witTasks
      (by decide) rfl (List.Perm.swap devA devB []) (by decide) (by decide)).1.2.1⟩

/-- C5: a random root-key generation failure or a failing remote
create-device / create-device-keys call inside any single concurrent
provisioning task terminates the whole process (log.Fatal), whatever
the completion order; it is never surfaced as a returned error
value (the outcome type of the task phase has no error-return case on
these paths). -/
theorem C5_task_failure_kills_process (appId : String)
    (tasks : List (Device × TaskEnv)) (m0 : List (EUI64 × Nat))
    (h : ∃ t ∈ tasks, t.2.randKey = none ∨ t.2.createErr = true ∨ t.2.createKeysErr = true) :
    runProvisioningTasks appId tasks m0 = .fatalExit := by
  apply runProvisioningTasks_fatal
  obtain ⟨t, ht, hfail⟩ := h
  refine ⟨t, ht, ?_⟩
  rintro ⟨hs1, hs2, hs3⟩
  rcases hfail with h' | h' | h'
  · rw [h'] at hs1
    simp at hs1
  · rw [h'] at hs2
    simp at hs2
  · rw [h'] at hs3
    simp at hs3

/-- C5 witness: one task whose random key generation fails. -/
theorem C5_witness :
    runProvisioningTasks "app" [(devA, ⟨none, false, false⟩)] [] = .fatalExit :=
  C5_task_failure_kills_process "app" [(devA, ⟨none, false, false⟩)] []
    ⟨(devA, ⟨none, false, false⟩), by simp, Or.inl rfl⟩

/-- C6: the run-phase context is the parent context wrapped WithCancel,
additionally wrapped with a deadline exactly when the configured
duration is nonzero; it is the context handed to every device run unit
and is cancellable, while every setup and teardown fixture operation
runs under the non-cancellable background context. -/
theorem C6_run_ctx_wiring (d : Nat) :
    (d ≠ 0 → runCtx Ctx.parentCtx d = Ctx.withTimeout (Ctx.withCancel Ctx.parentCtx) d) ∧
    (d = 0 → runCtx Ctx.parentCtx d = Ctx.withCancel Ctx.parentCtx) ∧
    hasDeadline (runCtx Ctx.parentCtx d) = decide (d ≠ 0) ∧
    (∀ parent, deviceRunCtx parent d = runCtx parent d ∧
      cancellable (runCtx parent d) = true) ∧
    (∀ op, fixtureOpCtx op = Ctx.background ∧ cancellable (fixtureOpCtx op) = false) := by
  refine ⟨?_, ?_, ?_, ?_, ?_⟩
  · intro h
    simp [runCtx, h]
  · intro h
    simp [runCtx, h]
  · by_cases h : d = 0 <;> simp [runCtx, hasDeadline, h]
  · intro parent
    by_cases h : d = 0 <;> simp [deviceRunCtx, runCtx, cancellable, h]
  · intro op
    cases op <;> simp [fixtureOpCtx, cancellable]

/-- C6 witness: duration 5 wraps a deadline, duration 0 does not. -/
theorem C6_witness :
    runCtx Ctx.parentCtx 5 = Ctx.withTimeout (Ctx.withCancel Ctx.parentCtx) 5 ∧
    runCtx Ctx.parentCtx 0 = Ctx.withCancel Ctx.parentCtx :=
  ⟨(C6_run_ctx_wiring 5).1 (by decide), (C6_run_ctx_wiring 0).2.1 rfl⟩

/-- C7: for every provisioned device, the key stored in deviceAppKeys
and sent to the remote create-device-keys call is the freshly generated
random 128-bit key, and the root-key column of the device-list row is
never used: changing it does not change the task's behaviour at all. -/
theorem C7_fresh_random_root_key (appId : String) (d : Device) (env : TaskEnv) (r : Nat)
    (hr : env.randKey = some r) (h1 : env.createErr = false) (h2 : env.createKeysErr = false) :
    runDeviceTask appId d env =
      (.ok (parseEUI d.DevEui) (r % 2 ^ 128),
       [.createDevice (parseEUI d.DevEui) d.Name d.Description appId d.DeviceProfileId,
        .createDeviceKeys (parseEUI d.DevEui) (r % 2 ^ 128)]) ∧
    r % 2 ^ 128 < 2 ^ 128 ∧
    ∀ nk : String, runDeviceTask appId { d with NwkKey := nk } env = runDeviceTask appId d env := by
  refine ⟨?_, Nat.mod_lt _ (by positivity), ?_⟩
  · simp [runDeviceTask, hr, h1, h2]
  · intro nk
    simp [runDeviceTask, hr, h1, h2]

/-- C7 witness: a concrete successful task stores and sends the random
key, not the k1 column. -/
theorem C7_witness :
    runDeviceTask "app" devA ⟨some 5, false, false⟩ =
      (.ok (parseEUI devA.DevEui) (5 % 2 ^ 128),
       [.createDevice (parseEUI devA.DevEui) devA.Name devA.Description "app" devA.DeviceProfileId,
        .createDeviceKeys (parseEUI devA.DevEui) (5 % 2 ^ 128)]) :=
  (C7_fresh_random_root_key "app" devA ⟨some 5, false, false⟩ 5 rfl rfl rfl).1

/-- C8: starting from the fresh simulation state (empty gatewayIDs),
setupGateways leaves gatewayIDs with length exactly gatewayMaxCount,
and every later state-writing operation of the lifecycle leaves
gatewayIDs untouched. -/
theorem C8_gatewayIDs_fixed (maxCount : Nat) (s0 : SimState) (h : s0.gatewayIDs = []) :
    ((setupGatewaysSt maxCount s0).gatewayIDs).length = maxCount ∧
    ∀ (s : SimState) (t fid : String) (m : List (EUI64 × Nat)),
      (setupTenantSt t s).gatewayIDs = s.gatewayIDs ∧
      (setupDeviceProfileSt s).gatewayIDs = s.gatewayIDs ∧
      (setupApplicationSt fid s).gatewayIDs = s.gatewayIDs ∧
      (setupDevicesSt m s).gatewayIDs = s.gatewayIDs ∧
      (tearDownDevicesSt s).gatewayIDs = s.gatewayIDs := by
  refine ⟨?_, ?_⟩
  · simp [setupGatewaysSt, h]
  · intro s t fid m
    exact ⟨rfl, rfl, rfl, rfl, rfl⟩

/-- C8 witness: three gateways on the fresh state. -/
theorem C8_witness :
    ((setupGatewaysSt 3 ⟨none, "", "", [], []⟩).gatewayIDs).length = 3 :=
  (C8_gatewayIDs_fixed 3 ⟨none, "", "", [], []⟩ rfl).1

/-- C9: whenever the OTAA activation delay draw yields an outcome, that
delay lies in the half-open interval from 0 (inclusive) to
activationTime (exclusive). -/
theorem C9_otaa_delay_in_range (activationTime v d : Int)
    (h : otaaDelay activationTime v = some d) :
    0 ≤ d ∧ d < activationTime := by
  simp only [otaaDelay, int63n] at h
  by_cases hb : activationTime ≤ 0
  · rw [if_pos hb] at h
    simp at h
  · rw [if_neg hb] at h
    obtain rfl : v.emod activationTime = d := by simpa using h
    have hpos : 0 < activationTime := lt_of_not_le hb
    exact ⟨Int.emod_nonneg v (ne_of_gt hpos), Int.emod_lt_of_pos v hpos⟩

/-- C9 witness: activation time 3 with draw 7 gives delay 1. -/
theorem C9_witness : (0 : Int) ≤ 1 ∧ (1 : Int) < 3 :=
  C9_otaa_delay_in_range 3 7 1 (by decide)

/-- C10: the constant gateway identity is the 8 bytes
10 20 30 40 50 60 70 80; after setupGateways on the fresh state every
element of gatewayIDs equals it, so any duplicate-free sampled index
set inside the pool refers to at most one distinct gateway identity. -/
theorem C10_constant_gateway_identity (maxCount : Nat) (s0 : SimState)
    (h : s0.gatewayIDs = []) :
    gatewayIdentity = [16, 32, 48, 64, 80, 96, 112, 128] ∧
    (∀ e ∈ (setupGatewaysSt maxCount s0).gatewayIDs, e = gatewayIdentity) ∧
    ∀ S : Finset Nat, (∀ i ∈ S, i < maxCount) →
      (S.image fun i => ((setupGatewaysSt maxCount s0).gatewayIDs).getD i []).card ≤ 1 := by
  have hgetd : ∀ idx < maxCount,
      ((setupGatewaysSt maxCount s0).gatewayIDs).getD idx [] = gatewayIdentity := by
    intro idx hidx
    simp only [setupGatewaysSt, h, List.nil_append]
    exact getD_replicate_of_lt gatewayIdentity maxCount idx hidx
  refine ⟨by decide, ?_, ?_⟩
  · intro e he
    exact List.eq_of_mem_replicate (by simpa [setupGatewaysSt, h] using he)
  · intro S hS
    apply Finset.card_le_one.mpr
    intro a ha b hb
    obtain ⟨i, hi, rfl⟩ := Finset.mem_image.mp ha
    obtain ⟨j, hj, rfl⟩ := Finset.mem_image.mp hb
    rw [hgetd i (hS i hi), hgetd j (hS j hj)]

/-- C10 witness: the parsed constant identity. -/
theorem C10_witness : gatewayIdentity = [16, 32, 48, 64, 80, 96, 112, 128] :=
  (C10_constant_gateway_identity 3 ⟨none, "", "", [], []⟩ rfl).1

end ChirpstackSim
